import Mathlib

/-!
Verification of `icon_changer.py` (desktop book-icon recoloring tool).

This file shallowly embeds the pure computational core of the script:
  * `rgb_color_distance` (Euclidean RGB distance),
  * the per-pixel compositing loop of `create_colored_book_icon`,
  * the post-clustering candidate filter of `get_dominant_color`,
  * the icon-location parsing of `get_original_icon_info`,
  * the backup-string parsing of `revert_icons`,
  * the JSON backup ledger (`load_backup` / `save_backup`), and
  * the per-shortcut orchestration loop of `apply_book_icons`.

External effects (the Windows shell, the file system, the `colorgram`
clustering library, the PIL image codecs, GDI icon extraction) are modelled
as explicit oracles / abstract inputs: a file system is a function from
paths to stored documents, the clustering step is an arbitrary candidate
list, and the per-item pipeline stages of the orchestrator are arbitrary
functions with the same success/failure signatures as in the source.
Python strings are modelled as `String` / `List Char`; Python `int` is ℤ;
Python floats (colorgram proportions) are ℚ; the float-valued Euclidean
distance is modelled as a real number.
-/

/-! ## Python string primitives

The script uses `str.split(',')`, `str.rsplit(',', 1)`, `str.strip()` and
`int(...)`.  We model them over `List Char` by structural recursion so that
all concrete evaluations reduce.
-/

/-- Python `str.isspace`-style whitespace recognized by `str.strip()`
(restricted to the ASCII whitespace that can realistically appear here). -/
def pyIsSpace (c : Char) : Bool :=
  c == ' ' || c == '\t' || c == '\n' || c == '\r' || c == '\x0b' || c == '\x0c'

/-- Python `str.strip()`: drop whitespace from both ends. -/
def pyStrip (l : List Char) : List Char :=
  ((l.dropWhile pyIsSpace).reverse.dropWhile pyIsSpace).reverse

/-- Parse a non-empty run of decimal digits; `none` on empty input or any
non-digit character.  Helper for the model of Python `int(...)`. -/
def pyDigits : List Char → Option Nat
  | [] => none
  | [c] => if c.isDigit then some (c.toNat - '0'.toNat) else none
  | c :: rest =>
    if c.isDigit then
      match pyDigits rest with
      | some n => some ((c.toNat - '0'.toNat) * 10 ^ rest.length + n)
      | none => none
    else none

/-- Model of Python `int(s)` for a decimal string: strips surrounding
whitespace, accepts an optional sign followed by digits, and fails
(`ValueError`, modelled as `none`) on anything else.  (Underscore digit
grouping and non-ASCII digits, which `int` also accepts, do not occur in
this program's data and are not modelled.) -/
def pyInt : List Char → Option Int
  | l =>
    match pyStrip l with
    | '-' :: rest => (pyDigits rest).map (fun n => -(n : Int))
    | '+' :: rest => (pyDigits rest).map (fun n => (n : Int))
    | rest => (pyDigits rest).map (fun n => (n : Int))

/-- Python `s.split(',')`: split at every comma; the empty string yields
`[""]`, like Python. -/
def pySplitComma : List Char → List (List Char)
  | [] => [[]]
  | c :: rest =>
    match pySplitComma rest with
    | [] => [[c]]
    | h :: t => if c = ',' then [] :: h :: t else (c :: h) :: t

/-- Python `s.rsplit(',', 1)` on a string known to contain a comma:
returns (text before the last comma, text after it). -/
def pyRsplitComma1 (l : List Char) : List Char × List Char :=
  (((l.reverse.dropWhile (· != ',')).drop 1).reverse,
    (l.reverse.takeWhile (· != ',')).reverse)

/-! ## Color distance (`rgb_color_distance`, source lines 49-50)

    def rgb_color_distance(color1, color2):
        return sum([(c1 - c2) ** 2 for c1, c2 in zip(color1, color2)]) ** 0.5

Applied only to RGB triples.  The float result is modelled as a real
number; the integer-valued sum of squared channel differences is kept as a
separate executable function, related to the distance by
`rgb_color_distance_lt_iff_sq`. -/

/-- Sum of squared per-channel differences of two RGB triples (the value
under the square root in `rgb_color_distance`). -/
def rgbSqDist (c1 c2 : ℤ × ℤ × ℤ) : ℤ :=
  (c1.1 - c2.1) ^ 2 + (c1.2.1 - c2.2.1) ^ 2 + (c1.2.2 - c2.2.2) ^ 2

/-- `rgb_color_distance`: Euclidean distance between two RGB triples. -/
noncomputable def rgb_color_distance (c1 c2 : ℤ × ℤ × ℤ) : ℝ :=
  Real.sqrt ((rgbSqDist c1 c2 : ℤ) : ℝ)

/-! ## Icon compositor (`create_colored_book_icon`, source lines 392-417)

The per-pixel loop:

    for y, x:
        current_pixel = template_data[x, y]
        current_rgb = current_pixel[:3]
        if rgb_color_distance(current_rgb, TEMPLATE_COVER_COLOR_RGB) < COLOR_MATCH_TOLERANCE:
            modified_data[x, y] = target_color_rgba[:3] + (current_pixel[3],)
        else:
            modified_data[x, y] = current_pixel

The template decoding, ICO encoding and file write are external; the model
is the pixel-grid transformation.  The `<` comparison on the float distance
is implemented on the integer squared distance, which agrees with the
source's comparison by `rgb_color_distance_lt_iff_sq`. -/

/-- An RGBA pixel (each channel 0-255 in real images; the model does not
need the bounds). -/
structure Rgba where
  r : ℤ
  g : ℤ
  b : ℤ
  a : ℤ
deriving DecidableEq, Repr

/-- The fixed cover color of the template (source line 25). -/
def TEMPLATE_COVER_COLOR_RGB : ℤ × ℤ × ℤ := (106, 156, 66)

/-- Tolerance for a pixel to count as cover-colored (source line 26). -/
def COLOR_MATCH_TOLERANCE : ℤ := 30

/-- A decoded bitmap: rows of RGBA pixels. -/
def PyImage := List (List Rgba)

/-- One iteration of the compositing loop: recolor a cover-colored pixel to
the target RGB keeping its alpha, copy any other pixel unchanged. -/
def compositePixel (target : ℤ × ℤ × ℤ) (p : Rgba) : Rgba :=
  if rgbSqDist (p.r, p.g, p.b) TEMPLATE_COVER_COLOR_RGB < COLOR_MATCH_TOLERANCE ^ 2 then
    { r := target.1, g := target.2.1, b := target.2.2, a := p.a }
  else
    p

/-- The pixel-grid transformation performed by `create_colored_book_icon`. -/
def create_colored_book_icon (target : ℤ × ℤ × ℤ) (template : PyImage) : PyImage :=
  template.map (fun row => row.map (compositePixel target))

/-- Pixel access `template_data[x, y]`, `none` when out of bounds. -/
def getPx (img : PyImage) (y x : ℕ) : Option Rgba :=
  (img.get? y).bind (fun row => row.get? x)

/-! ## Dominant color analyzer (`get_dominant_color`, source lines 349-390)

The thumbnail/PNG-encode/`colorgram.extract` steps are external: the model
starts from the extracted candidate list (each candidate an RGB triple with
a proportion, as `colorgram` returns).  The suitability filter and the
choice of the final color are embedded from the source:

    is_grayscale = abs(rgb.r - rgb.g) < 15 and abs(rgb.g - rgb.b) < 15
    is_too_dark = sum(rgb_tuple) < 50
    is_too_light = sum(rgb_tuple) > 700
    if not is_grayscale and not is_too_dark and not is_too_light:
        if max_rgb - min_rgb > 10: suitable_colors.append(...)

`sorted(..., key=proportion, reverse=True)[0]` (a stable descending sort)
picks the first candidate attaining the maximal proportion, which
`mostProminent` computes directly. -/

/-- A clustered color candidate as returned by `colorgram`. -/
structure CgColor where
  r : ℤ
  g : ℤ
  b : ℤ
  proportion : ℚ
deriving DecidableEq, Repr

/-- The near-grayscale test of the source (adjacent channel pairs only). -/
def is_grayscale (r g b : ℤ) : Bool :=
  decide (|r - g| < 15) && decide (|g - b| < 15)

/-- `sum(rgb_tuple) < 50`. -/
def is_too_dark (r g b : ℤ) : Bool := decide (r + g + b < 50)

/-- `sum(rgb_tuple) > 700`. -/
def is_too_light (r g b : ℤ) : Bool := decide (r + g + b > 700)

/-- A candidate passes the filter when it is not near-grayscale, not too
dark, not too light, and has channel spread `max - min > 10`. -/
def suitable (c : CgColor) : Bool :=
  !is_grayscale c.r c.g c.b && !is_too_dark c.r c.g c.b && !is_too_light c.r c.g c.b &&
    decide (max (max c.r c.g) c.b - min (min c.r c.g) c.b > 10)

/-- First candidate attaining the maximal proportion among `c :: cs`
(the head of the stable descending sort the source takes). -/
def mostProminent (c : CgColor) (cs : List CgColor) : CgColor :=
  cs.foldl (fun best x => if best.proportion < x.proportion then x else best) c

/-- The RGB triple of a candidate. -/
def rgbOf (c : CgColor) : ℤ × ℤ × ℤ := (c.r, c.g, c.b)

/-- Post-clustering logic of `get_dominant_color`: `None` when clustering
produced no colors; the best suitable candidate when one exists; otherwise
the most prominent unfiltered candidate (the logged-caveat fallback). -/
def get_dominant_color (colors : List CgColor) : Option (ℤ × ℤ × ℤ) :=
  match colors with
  | [] => none
  | c :: cs =>
    match (c :: cs).filter suitable with
    | s :: srest => some (rgbOf (mostProminent s srest))
    | [] => some (rgbOf (mostProminent c cs))

/-- The near-grayscale test as the specification words it: maximal pairwise
channel difference below 15.  (Spec-side definition, for comparison with
`is_grayscale`.) -/
def grayscale_claimed (r g b : ℤ) : Prop :=
  max (max |r - g| |g - b|) |r - b| < 15

instance (r g b : ℤ) : Decidable (grayscale_claimed r g b) :=
  inferInstanceAs (Decidable (_ < _))

/-! ## Original icon info (`get_original_icon_info`, source lines 65-104)

The shortcut itself is external: the model receives the shortcut's
`icon_location` value (a (path, index) pair, a string, or nothing) and its
target path, plus a file-system oracle for `os.path.exists`,
`os.path.isfile` and `os.path.expandvars`.  A `ValueError` from
`int(parts[1].strip())` propagates to the enclosing `except`, which
returns `(None, None)`; the model threads that exception as `none` through
`parseIconLocation`. -/

/-- File-system oracle: `os.path.exists`, `os.path.isfile`,
`os.path.expandvars`. -/
structure FsOracle where
  exists_fn : String → Bool
  isfile_fn : String → Bool
  expandvars : String → String

/-- The shapes `lnk.icon_location` can take. -/
inductive IconLocation where
  | pair (path : String) (index : Option ℤ)
  | str (s : String)
  | empty

/-- `target_path.lower().endswith((".exe", ".dll", ".ico"))`. -/
def hasIconExt (p : String) : Bool :=
  p.toLower.endsWith ".exe" || p.toLower.endsWith ".dll" || p.toLower.endsWith ".ico"

/-- Lines 73-81: extract (path, index) from `icon_location`.  Result
`none` models the uncaught `ValueError` from `int(...)`; otherwise the
pair (optional path, index), with index defaulting to 0. -/
def parseIconLocation : IconLocation → Option (Option String × ℤ)
  | IconLocation.pair p oi => some (some p, oi.getD 0)
  | IconLocation.str s =>
    if s.data = [] then some (none, 0)
    else if 1 < (pySplitComma s.data).length then
      match pyInt ((pySplitComma s.data).getD 1 []) with
      | some i => some (some (String.mk (pyStrip ((pySplitComma s.data).headD []))), i)
      | none => none
    else some (some (String.mk (pyStrip ((pySplitComma s.data).headD []))), 0)
  | IconLocation.empty => some (none, 0)

/-- Lines 94-100: expand environment variables in the chosen path and
require the resolved path to exist; `(None, None)` otherwise. -/
def resolveIconPath (fs : FsOracle) (p : String) (i : ℤ) : Option (String × ℤ) :=
  if fs.exists_fn (fs.expandvars p) then some (fs.expandvars p, i) else none

/-- Lines 83-92: fall back to the shortcut's target when no usable path
came from `icon_location`. -/
def iconFromTarget (fs : FsOracle) (target : Option String) : Option (String × ℤ) :=
  match target with
  | none => none
  | some tp =>
    if tp ≠ "" ∧ fs.exists_fn tp = true ∧ (hasIconExt tp = true ∨ fs.isfile_fn tp = true) then
      resolveIconPath fs tp 0
    else none

/-- `get_original_icon_info`: returns `(None, None)` (modelled `none`) or a
resolved, existing icon path with its index. -/
def get_original_icon_info (fs : FsOracle) (loc : IconLocation) (target : Option String) :
    Option (String × ℤ) :=
  match parseIconLocation loc with
  | none => none
  | some (pathOpt, index) =>
    match pathOpt with
    | none => iconFromTarget fs target
    | some p => if p = "" then iconFromTarget fs target else resolveIconPath fs p index

/-! ## Revert parsing (`revert_icons`, source lines 317-331)

    path = orig_icon_location_str; index = 0
    if ',' in orig_icon_location_str:
        try:
            path, idx_str = orig_icon_location_str.rsplit(',', 1)
            index = int(idx_str.strip())
        except ValueError:
            index = 0; path = orig_icon_location_str
    lnk.icon_location = (path.strip(), index)
-/

/-- The parsing on the character list: split at the last comma when one is
present, parse the index (defaulting to 0 with the whole string as path on
`ValueError`), and strip the path. -/
def revert_parse_core (cs : List Char) : List Char × ℤ :=
  if cs.contains ',' then
    match pyInt (pyRsplitComma1 cs).2 with
    | some i => (pyStrip (pyRsplitComma1 cs).1, i)
    | none => (pyStrip cs, 0)
  else (pyStrip cs, 0)

/-- The icon reference `revert_icons` restores from one ledger value. -/
def revert_parse_icon_location (s : String) : String × ℤ :=
  (String.mk (revert_parse_core s.data).1, (revert_parse_core s.data).2)

/-! ## Backup ledger (`load_backup` / `save_backup`, source lines 420-442)

The file system is a map from paths to stored documents; a stored document
is `some j` when the file parses as JSON `j` and `none` when it is corrupt.
The `json` codec is modelled at the level of its document model: `dump`
stores the document, `load` returns it with Python `dict` semantics applied
to every object (later duplicate keys overwrite earlier ones in place). -/

/-- A JSON document. -/
inductive Json where
  | null
  | bool (b : Bool)
  | num (q : ℚ)
  | str (s : String)
  | arr (elems : List Json)
  | obj (entries : List (String × Json))

/-- Python `d[k] = v`: overwrite in place when the key is present,
append otherwise. -/
def dictSet {α : Type} : List (String × α) → String → α → List (String × α)
  | [], k, v => [(k, v)]
  | (k1, v1) :: t, k, v => if k1 = k then (k, v) :: t else (k1, v1) :: dictSet t k v

/-- Python `d[k]` / `k in d` on the association-list model of a dict. -/
def dictLookup {α : Type} (k : String) : List (String × α) → Option α
  | [] => none
  | (k1, v) :: t => if k = k1 then some v else dictLookup k t

/-- Build a Python `dict` from key-value pairs in order. -/
def pyDictOf {α : Type} (l : List (String × α)) : List (String × α) :=
  l.foldl (fun d p => dictSet d p.1 p.2) []

mutual

/-- `json.load`ing a document: objects become dicts (duplicate keys
collapse, last wins), everything else is returned as-is. -/
def pyJsonLoad : Json → Json
  | Json.null => Json.null
  | Json.bool b => Json.bool b
  | Json.num q => Json.num q
  | Json.str s => Json.str s
  | Json.arr l => Json.arr (pyJsonLoadList l)
  | Json.obj l => Json.obj (pyDictOf (pyJsonLoadEntries l))

def pyJsonLoadList : List Json → List Json
  | [] => []
  | j :: t => pyJsonLoad j :: pyJsonLoadList t

def pyJsonLoadEntries : List (String × Json) → List (String × Json)
  | [] => []
  | (k, v) :: t => (k, pyJsonLoad v) :: pyJsonLoadEntries t

end

/-- The file-system store: path to `none` (absent), `some none`
(present but corrupt), or `some (some j)` (parses as `j`). -/
def FileStore := String → Option (Option Json)

/-- The backup file path (relative to the script directory). -/
def BACKUP_FILE : String := "icon_backups/icon_backup.json"

/-- Writing a JSON document to a path (whole-file replace). -/
def fsWrite (fs : FileStore) (path : String) (j : Json) : FileStore :=
  fun p => if p = path then some (some j) else fs p

/-- The document `json.dump` stores for a ledger mapping. -/
def ledgerJson (d : List (String × String)) : Json :=
  Json.obj (d.map (fun kv => (kv.1, Json.str kv.2)))

/-- `save_backup`: serialize the full mapping to the backup file. -/
def save_backup (fs : FileStore) (backup_data : List (String × String)) : FileStore :=
  fsWrite fs BACKUP_FILE (ledgerJson backup_data)

/-- `load_backup`: the parsed backup file, `{}` when absent or corrupt. -/
def load_backup (fs : FileStore) : Json :=
  match fs BACKUP_FILE with
  | some (some j) => pyJsonLoad j
  | some none => Json.obj []
  | none => Json.obj []

/-! ## Apply orchestrator (`apply_book_icons`, source lines 445-526)

The per-item pipeline stages are oracles with the same signatures and
failure values as the source functions (`get_original_icon_info`,
`extract_icon_image`, `get_dominant_color`, `create_colored_book_icon`,
`set_shortcut_icon`, and the generated-icon-path naming).  The loop body,
the skip/processed counters, the backup bookkeeping and the final
`save_backup` are embedded from the source. -/

/-- The per-item pipeline stages, as oracles. -/
structure Stages where
  get_info : String → Option (String × ℤ)
  extract_icon : String → ℤ → Option PyImage
  dominant : PyImage → Option (ℤ × ℤ × ℤ)
  gen_path : String → String
  create_icon : (ℤ × ℤ × ℤ) → String → Bool
  set_icon : String → String → Bool

/-- Counters and the in-memory ledger during an apply run. -/
structure RunState where
  processed : ℕ
  skipped : ℕ
  backup : List (String × String)
deriving DecidableEq, Repr

/-- `f"{orig_icon_path},{int(orig_icon_index)}"`. -/
def entryStr (p : String) (i : ℤ) : String := p ++ "," ++ toString i

/-- Lines 480-485: store the backup entry unless it is already present and
identical. -/
def backupWith (b : List (String × String)) (s p : String) (i : ℤ) :
    List (String × String) :=
  if dictLookup s b = some (entryStr p i) then b else dictSet b s (entryStr p i)

/-- Lines 507-516: create the recolored icon and apply it to the shortcut;
either failure skips. -/
def processShortcutApply (st : Stages) (r : RunState) (s : String)
    (b : List (String × String)) (col : ℤ × ℤ × ℤ) : RunState :=
  if st.create_icon col (st.gen_path s) then
    if st.set_icon s (st.gen_path s) then
      { r with processed := r.processed + 1, backup := b }
    else { r with skipped := r.skipped + 1, backup := b }
  else { r with skipped := r.skipped + 1, backup := b }

/-- Lines 499-505: determine the dominant color; failure skips. -/
def processShortcutAnalyze (st : Stages) (r : RunState) (s : String)
    (b : List (String × String)) (img : PyImage) : RunState :=
  match st.dominant img with
  | none => { r with skipped := r.skipped + 1, backup := b }
  | some col => processShortcutApply st r s b col

/-- The loop body after the backup entry `b` has been recorded: extraction
(lines 493-497), then analysis and application. -/
def processShortcutRest (st : Stages) (r : RunState) (s : String)
    (b : List (String × String)) (p : String) (i : ℤ) : RunState :=
  match st.extract_icon p i with
  | none => { r with skipped := r.skipped + 1, backup := b }
  | some img => processShortcutAnalyze st r s b img

/-- The loop body of `apply_book_icons` for one shortcut: read the original
reference (skipping on failure), record the backup entry, then run the
remaining stages. -/
def processShortcut (st : Stages) (r : RunState) (s : String) : RunState :=
  match st.get_info s with
  | none => { r with skipped := r.skipped + 1 }
  | some (p, i) => processShortcutRest st r s (backupWith r.backup s p i) p i

/-- The shortcut loop. -/
def applyLoop (st : Stages) (shortcuts : List String) (r : RunState) : RunState :=
  shortcuts.foldl (processShortcut st) r

/-- The apply run after the shortcut list is known: loop over the
shortcuts starting from the loaded ledger, then persist the ledger once. -/
def apply_book_icons (st : Stages) (shortcuts : List String)
    (backup0 : List (String × String)) (fs : FileStore) : ℕ × ℕ × FileStore :=
  let r := applyLoop st shortcuts ⟨0, 0, backup0⟩
  (r.processed, r.skipped, save_backup fs r.backup)

/-- Claim-side predicate: icon creation or icon application fails. -/
def stageFailsApply (st : Stages) (s : String) (col : ℤ × ℤ × ℤ) : Bool :=
  !(st.create_icon col (st.gen_path s) && st.set_icon s (st.gen_path s))

/-- Claim-side predicate: color analysis or a later stage fails. -/
def stageFailsAnalyze (st : Stages) (s : String) (img : PyImage) : Bool :=
  match st.dominant img with
  | none => true
  | some col => stageFailsApply st s col

/-- Claim-side predicate: extraction or a later stage fails. -/
def stageFailsRest (st : Stages) (s p : String) (i : ℤ) : Bool :=
  match st.extract_icon p i with
  | none => true
  | some img => stageFailsAnalyze st s img

/-- Claim-side predicate: some per-item stage fails for shortcut `s`
(original-info read, extraction, color analysis, icon creation, or icon
application). -/
def stageFails (st : Stages) (s : String) : Bool :=
  match st.get_info s with
  | none => true
  | some (p, i) => stageFailsRest st s p i

/-! ## Concrete fixtures used by witnesses and counterexamples -/

/-- Oracle on which every path exists and environment-variable expansion is
the identity. -/
def fsAll : FsOracle := ⟨fun _ => true, fun _ => true, fun s => s⟩

/-- An empty file store. -/
def fsEmpty : FileStore := fun _ => none

/-- Stage oracles on which reading the original icon reference fails. -/
def stInfoFail : Stages :=
  ⟨fun _ => none, fun _ _ => none, fun _ => none, fun s => s, fun _ _ => false,
   fun _ _ => false⟩

/-- Stage oracles on which the original reference reads fine but bitmap
extraction fails. -/
def stExtractFail : Stages :=
  ⟨fun _ => some ("C:\\orig.exe", 3), fun _ _ => none, fun _ => none, fun s => s,
   fun _ _ => false, fun _ _ => false⟩

/-! ## Helper lemmas -/

lemma rgbSqDist_comm (c1 c2 : ℤ × ℤ × ℤ) : rgbSqDist c1 c2 = rgbSqDist c2 c1 := by
  unfold rgbSqDist; ring

lemma rgbSqDist_self (c : ℤ × ℤ × ℤ) : rgbSqDist c c = 0 := by
  unfold rgbSqDist; ring

/-- The threshold comparison the compositor performs: comparing the
Euclidean distance against a positive tolerance is the same as comparing
the squared distance against the squared tolerance. -/
lemma rgb_color_distance_lt_iff_sq (c1 c2 : ℤ × ℤ × ℤ) (tol : ℤ) (htol : 0 < tol) :
    rgb_color_distance c1 c2 < (tol : ℝ) ↔ rgbSqDist c1 c2 < tol ^ 2 := by
  unfold rgb_color_distance
  rw [Real.sqrt_lt' (by exact_mod_cast htol)]
  constructor <;> intro h <;> exact_mod_cast h

lemma getPx_composite (t : ℤ × ℤ × ℤ) (img : PyImage) (y x : ℕ) :
    getPx (create_colored_book_icon t img) y x = (getPx img y x).map (compositePixel t) := by
  unfold getPx create_colored_book_icon
  rw [List.get?_map]
  cases img.get? y with
  | none => rfl
  | some row => simp [List.get?_map]

lemma takeWhile_append_stop {α : Type} (pred : α → Bool) (l t : List α) (x : α)
    (hl : ∀ c ∈ l, pred c = true) (hx : pred x = false) :
    (l ++ x :: t).takeWhile pred = l := by
  induction l with
  | nil => simp [List.takeWhile_cons, hx]
  | cons a l ih =>
    have ha : pred a = true := hl a (List.mem_cons_self a l)
    simp [List.takeWhile_cons, ha, ih (fun c hc => hl c (List.mem_cons_of_mem a hc))]

lemma dropWhile_append_stop {α : Type} (pred : α → Bool) (l t : List α) (x : α)
    (hl : ∀ c ∈ l, pred c = true) (hx : pred x = false) :
    (l ++ x :: t).dropWhile pred = x :: t := by
  induction l with
  | nil => simp [List.dropWhile_cons, hx]
  | cons a l ih =>
    have ha : pred a = true := hl a (List.mem_cons_self a l)
    simp [List.dropWhile_cons, ha, ih (fun c hc => hl c (List.mem_cons_of_mem a hc))]

lemma pyRsplitComma1_append (p ds : List Char) (hds : ',' ∉ ds) :
    pyRsplitComma1 (p ++ ',' :: ds) = (p, ds) := by
  unfold pyRsplitComma1
  have hrev : (p ++ ',' :: ds).reverse = ds.reverse ++ ',' :: p.reverse := by
    simp
  have hall : ∀ c ∈ ds.reverse, (c != ',') = true := by
    intro c hc
    have hmem : c ∈ ds := List.mem_reverse.mp hc
    have hne : c ≠ ',' := fun h => hds (h ▸ hmem)
    simp [hne]
  rw [hrev, takeWhile_append_stop _ _ _ _ hall (by simp),
    dropWhile_append_stop _ _ _ _ hall (by simp)]
  simp only [List.drop_succ_cons, List.drop_zero, List.reverse_reverse]

lemma dictLookup_dictSet_self {α : Type} (d : List (String × α)) (k : String) (v : α) :
    dictLookup k (dictSet d k v) = some v := by
  induction d with
  | nil => simp [dictSet, dictLookup]
  | cons hd tl ih =>
    obtain ⟨k1, v1⟩ := hd
    by_cases h1 : k1 = k
    · simp [dictSet, h1, dictLookup]
    · have h2 : k ≠ k1 := fun he => h1 he.symm
      simp [dictSet, h1, dictLookup, h2, ih]

lemma dictLookup_dictSet_ne {α : Type} (d : List (String × α)) (k k' : String) (v : α)
    (h : k' ≠ k) :
    dictLookup k' (dictSet d k v) = dictLookup k' d := by
  induction d with
  | nil => simp [dictSet, dictLookup, h]
  | cons hd tl ih =>
    obtain ⟨k1, v1⟩ := hd
    by_cases h1 : k1 = k
    · subst h1
      simp [dictSet, dictLookup, if_neg (fun he : k' = k1 => h he)]
    · by_cases h2 : k' = k1
      · simp [dictSet, h1, dictLookup, h2]
      · simp [dictSet, h1, dictLookup, h2, ih]

lemma dictSet_not_mem {α : Type} (d : List (String × α)) (k : String) (v : α)
    (h : k ∉ d.map Prod.fst) :
    dictSet d k v = d ++ [(k, v)] := by
  induction d with
  | nil => rfl
  | cons hd tl ih =>
    obtain ⟨k1, v1⟩ := hd
    have h1 : k1 ≠ k := fun he => h (by simp [he])
    have h2 : k ∉ tl.map Prod.fst := by
      intro hm
      exact h (by simp at hm ⊢; exact Or.inr hm)
    simp only [dictSet, if_neg h1, List.cons_append]
    rw [ih h2]

lemma foldl_dictSet_of_nodup {α : Type} (l acc : List (String × α))
    (h : (acc.map Prod.fst ++ l.map Prod.fst).Nodup) :
    l.foldl (fun d p => dictSet d p.1 p.2) acc = acc ++ l := by
  induction l generalizing acc with
  | nil => simp
  | cons hd tl ih =>
    have hnotmem : hd.1 ∉ acc.map Prod.fst := by
      intro hm
      rcases List.nodup_append.mp h with ⟨_, _, hdisj⟩
      exact hdisj hm (by simp)
    rw [List.foldl_cons, dictSet_not_mem acc hd.1 hd.2 hnotmem,
      ih (acc ++ [hd]) (by rw [List.map_append, List.append_assoc]; simpa using h)]
    simp

lemma pyDictOf_of_nodup {α : Type} (l : List (String × α)) (h : (l.map Prod.fst).Nodup) :
    pyDictOf l = l := by
  unfold pyDictOf
  have := foldl_dictSet_of_nodup l [] (by simpa using h)
  simpa using this

lemma pyJsonLoadEntries_str (d : List (String × String)) :
    pyJsonLoadEntries (d.map (fun kv => (kv.1, Json.str kv.2))) =
      d.map (fun kv => (kv.1, Json.str kv.2)) := by
  induction d with
  | nil => rfl
  | cons hd tl ih => simp [pyJsonLoadEntries, pyJsonLoad, ih]

lemma applyLoop_cons (st : Stages) (s : String) (rest : List String) (r : RunState) :
    applyLoop st (s :: rest) r = applyLoop st rest (processShortcut st r s) := rfl

lemma processShortcut_eq_none (st : Stages) (r : RunState) (s : String)
    (h : st.get_info s = none) :
    processShortcut st r s = { r with skipped := r.skipped + 1 } := by
  unfold processShortcut
  rw [h]

lemma processShortcut_eq_some (st : Stages) (r : RunState) (s p : String) (i : ℤ)
    (h : st.get_info s = some (p, i)) :
    processShortcut st r s =
      processShortcutRest st r s (backupWith r.backup s p i) p i := by
  unfold processShortcut
  rw [h]

lemma processShortcutRest_eq_extract_none (st : Stages) (r : RunState) (s : String)
    (b : List (String × String)) (p : String) (i : ℤ)
    (h : st.extract_icon p i = none) :
    processShortcutRest st r s b p i = { r with skipped := r.skipped + 1, backup := b } := by
  unfold processShortcutRest
  rw [h]

lemma processShortcutRest_eq_some (st : Stages) (r : RunState) (s : String)
    (b : List (String × String)) (p : String) (i : ℤ) (img : PyImage)
    (h : st.extract_icon p i = some img) :
    processShortcutRest st r s b p i = processShortcutAnalyze st r s b img := by
  unfold processShortcutRest
  rw [h]

lemma processShortcutAnalyze_eq_none (st : Stages) (r : RunState) (s : String)
    (b : List (String × String)) (img : PyImage) (h : st.dominant img = none) :
    processShortcutAnalyze st r s b img = { r with skipped := r.skipped + 1, backup := b } := by
  unfold processShortcutAnalyze
  rw [h]

lemma processShortcutAnalyze_eq_some (st : Stages) (r : RunState) (s : String)
    (b : List (String × String)) (img : PyImage) (col : ℤ × ℤ × ℤ)
    (h : st.dominant img = some col) :
    processShortcutAnalyze st r s b img = processShortcutApply st r s b col := by
  unfold processShortcutAnalyze
  rw [h]

lemma processShortcutApply_eq_create_false (st : Stages) (r : RunState) (s : String)
    (b : List (String × String)) (col : ℤ × ℤ × ℤ)
    (h3 : st.create_icon col (st.gen_path s) = false) :
    processShortcutApply st r s b col = { r with skipped := r.skipped + 1, backup := b } := by
  unfold processShortcutApply
  rw [h3]
  simp

lemma processShortcutApply_eq_set_false (st : Stages) (r : RunState) (s : String)
    (b : List (String × String)) (col : ℤ × ℤ × ℤ)
    (h3 : st.create_icon col (st.gen_path s) = true)
    (h4 : st.set_icon s (st.gen_path s) = false) :
    processShortcutApply st r s b col = { r with skipped := r.skipped + 1, backup := b } := by
  unfold processShortcutApply
  rw [h3, h4]
  simp

lemma processShortcutApply_eq_success (st : Stages) (r : RunState) (s : String)
    (b : List (String × String)) (col : ℤ × ℤ × ℤ)
    (h3 : st.create_icon col (st.gen_path s) = true)
    (h4 : st.set_icon s (st.gen_path s) = true) :
    processShortcutApply st r s b col = { r with processed := r.processed + 1, backup := b } := by
  unfold processShortcutApply
  rw [h3, h4]
  simp

lemma processShortcutRest_cases (st : Stages) (r : RunState) (s : String)
    (b : List (String × String)) (p : String) (i : ℤ) :
    processShortcutRest st r s b p i = { r with skipped := r.skipped + 1, backup := b } ∨
    processShortcutRest st r s b p i = { r with processed := r.processed + 1, backup := b } := by
  cases h1 : st.extract_icon p i with
  | none => exact Or.inl (processShortcutRest_eq_extract_none st r s b p i h1)
  | some img =>
    rw [processShortcutRest_eq_some st r s b p i img h1]
    cases h2 : st.dominant img with
    | none => exact Or.inl (processShortcutAnalyze_eq_none st r s b img h2)
    | some col =>
      rw [processShortcutAnalyze_eq_some st r s b img col h2]
      cases h3 : st.create_icon col (st.gen_path s) with
      | false => exact Or.inl (processShortcutApply_eq_create_false st r s b col h3)
      | true =>
        cases h4 : st.set_icon s (st.gen_path s) with
        | false => exact Or.inl (processShortcutApply_eq_set_false st r s b col h3 h4)
        | true => exact Or.inr (processShortcutApply_eq_success st r s b col h3 h4)

lemma processShortcut_count (st : Stages) (r : RunState) (s : String) :
    (processShortcut st r s).processed + (processShortcut st r s).skipped =
      r.processed + r.skipped + 1 := by
  cases hg : st.get_info s with
  | none =>
    rw [processShortcut_eq_none st r s hg]
    show r.processed + (r.skipped + 1) = r.processed + r.skipped + 1
    omega
  | some pi =>
    obtain ⟨p, i⟩ := pi
    rw [processShortcut_eq_some st r s p i hg]
    rcases processShortcutRest_cases st r s (backupWith r.backup s p i) p i with h | h <;> rw [h]
    · show r.processed + (r.skipped + 1) = r.processed + r.skipped + 1
      omega
    · show r.processed + 1 + r.skipped = r.processed + r.skipped + 1
      omega

lemma applyLoop_count (st : Stages) (l : List String) (r : RunState) :
    (applyLoop st l r).processed + (applyLoop st l r).skipped =
      r.processed + r.skipped + l.length := by
  induction l generalizing r with
  | nil => simp [applyLoop]
  | cons s t ih =>
    rw [applyLoop_cons, ih]
    have := processShortcut_count st r s
    simp only [List.length_cons]
    omega

lemma processShortcut_backup_eq (st : Stages) (r : RunState) (t : String) :
    (st.get_info t = none ∧ (processShortcut st r t).backup = r.backup) ∨
    (∃ q j, st.get_info t = some (q, j) ∧
      (processShortcut st r t).backup = backupWith r.backup t q j) := by
  cases hg : st.get_info t with
  | none => exact Or.inl ⟨rfl, by rw [processShortcut_eq_none st r t hg]⟩
  | some qj =>
    obtain ⟨q, j⟩ := qj
    refine Or.inr ⟨q, j, rfl, ?_⟩
    rw [processShortcut_eq_some st r t q j hg]
    rcases processShortcutRest_cases st r t (backupWith r.backup t q j) q j with h | h <;>
      rw [h]

lemma dictLookup_backupWith_self (b : List (String × String)) (s p : String) (i : ℤ) :
    dictLookup s (backupWith b s p i) = some (entryStr p i) := by
  unfold backupWith
  split
  case isTrue h => exact h
  case isFalse h => exact dictLookup_dictSet_self b s (entryStr p i)

lemma dictLookup_backupWith_ne (b : List (String × String)) (s t p : String) (i : ℤ)
    (h : s ≠ t) :
    dictLookup s (backupWith b t p i) = dictLookup s b := by
  unfold backupWith
  split
  · rfl
  · exact dictLookup_dictSet_ne b t s (entryStr p i) h

lemma processShortcut_entry_preserved (st : Stages) (r : RunState) (s t p : String) (i : ℤ)
    (hs : st.get_info s = some (p, i))
    (hl : dictLookup s r.backup = some (entryStr p i)) :
    dictLookup s (processShortcut st r t).backup = some (entryStr p i) := by
  rcases processShortcut_backup_eq st r t with ⟨_, hb⟩ | ⟨q, j, hq, hb⟩
  · rw [hb]; exact hl
  · rw [hb]
    by_cases hts : s = t
    · subst hts
      rw [hs] at hq
      simp only [Option.some.injEq, Prod.mk.injEq] at hq
      obtain ⟨rfl, rfl⟩ := hq
      exact dictLookup_backupWith_self r.backup s p i
    · rw [dictLookup_backupWith_ne r.backup s t q j hts]
      exact hl

lemma processShortcut_entry_self (st : Stages) (r : RunState) (s p : String) (i : ℤ)
    (hs : st.get_info s = some (p, i)) :
    dictLookup s (processShortcut st r s).backup = some (entryStr p i) := by
  rcases processShortcut_backup_eq st r s with ⟨hn, _⟩ | ⟨q, j, hq, hb⟩
  · rw [hs] at hn; cases hn
  · rw [hb]
    rw [hs] at hq
    simp only [Option.some.injEq, Prod.mk.injEq] at hq
    obtain ⟨rfl, rfl⟩ := hq
    exact dictLookup_backupWith_self r.backup s p i

lemma applyLoop_entry_preserved (st : Stages) (l : List String) (r : RunState)
    (s p : String) (i : ℤ) (hs : st.get_info s = some (p, i))
    (hl : dictLookup s r.backup = some (entryStr p i)) :
    dictLookup s (applyLoop st l r).backup = some (entryStr p i) := by
  induction l generalizing r with
  | nil => exact hl
  | cons t tl ih =>
    rw [applyLoop_cons]
    exact ih _ (processShortcut_entry_preserved st r s t p i hs hl)

lemma applyLoop_entry_of_mem (st : Stages) (l : List String) (r : RunState)
    (s p : String) (i : ℤ) (hs : st.get_info s = some (p, i)) (hmem : s ∈ l) :
    dictLookup s (applyLoop st l r).backup = some (entryStr p i) := by
  induction l generalizing r with
  | nil => cases hmem
  | cons t tl ih =>
    rw [applyLoop_cons]
    rcases List.mem_cons.mp hmem with rfl | hmem2
    · exact applyLoop_entry_preserved st tl _ s p i hs
        (processShortcut_entry_self st r s p i hs)
    · exact ih _ hmem2

lemma stageFails_eq_some (st : Stages) (s p : String) (i : ℤ)
    (h : st.get_info s = some (p, i)) :
    stageFails st s = stageFailsRest st s p i := by
  unfold stageFails
  rw [h]

lemma stageFailsRest_eq_some (st : Stages) (s p : String) (i : ℤ) (img : PyImage)
    (h : st.extract_icon p i = some img) :
    stageFailsRest st s p i = stageFailsAnalyze st s img := by
  unfold stageFailsRest
  rw [h]

lemma stageFailsAnalyze_eq_some (st : Stages) (s : String) (img : PyImage) (col : ℤ × ℤ × ℤ)
    (h : st.dominant img = some col) :
    stageFailsAnalyze st s img = stageFailsApply st s col := by
  unfold stageFailsAnalyze
  rw [h]

lemma processShortcut_of_stageFails (st : Stages) (r : RunState) (s : String)
    (h : stageFails st s = true) :
    (processShortcut st r s).skipped = r.skipped + 1 ∧
      (processShortcut st r s).processed = r.processed := by
  cases hg : st.get_info s with
  | none => rw [processShortcut_eq_none st r s hg]; exact ⟨rfl, rfl⟩
  | some pi =>
    obtain ⟨p, i⟩ := pi
    rw [stageFails_eq_some st s p i hg] at h
    rw [processShortcut_eq_some st r s p i hg]
    cases he : st.extract_icon p i with
    | none =>
      rw [processShortcutRest_eq_extract_none st r s _ p i he]
      exact ⟨rfl, rfl⟩
    | some img =>
      rw [stageFailsRest_eq_some st s p i img he] at h
      rw [processShortcutRest_eq_some st r s _ p i img he]
      cases hd : st.dominant img with
      | none =>
        rw [processShortcutAnalyze_eq_none st r s _ img hd]
        exact ⟨rfl, rfl⟩
      | some col =>
        rw [stageFailsAnalyze_eq_some st s img col hd] at h
        rw [processShortcutAnalyze_eq_some st r s _ img col hd]
        cases hc : st.create_icon col (st.gen_path s) with
        | false =>
          rw [processShortcutApply_eq_create_false st r s _ col hc]
          exact ⟨rfl, rfl⟩
        | true =>
          cases hs2 : st.set_icon s (st.gen_path s) with
          | false =>
            rw [processShortcutApply_eq_set_false st r s _ col hc hs2]
            exact ⟨rfl, rfl⟩
          | true =>
            unfold stageFailsApply at h
            rw [hc, hs2] at h
            simp at h

/-! ## Claim theorems -/

/-- Claim C1: for every pixel of the template bitmap, compositing with a
target color `t` produces: if the pixel's RGB Euclidean distance to
`TEMPLATE_COVER_COLOR_RGB` (106,156,66) is strictly below
`COLOR_MATCH_TOLERANCE` (30), an output pixel whose RGB equals `t` and
whose alpha equals the input pixel's alpha; otherwise an output pixel
identical to the input pixel. -/
theorem compositor_recolors_cover_pixels (t : ℤ × ℤ × ℤ) (img : PyImage) (y x : ℕ)
    (p : Rgba) (h : getPx img y x = some p) :
    (rgb_color_distance (p.r, p.g, p.b) TEMPLATE_COVER_COLOR_RGB < (COLOR_MATCH_TOLERANCE : ℝ) →
      getPx (create_colored_book_icon t img) y x = some ⟨t.1, t.2.1, t.2.2, p.a⟩) ∧
    (¬ rgb_color_distance (p.r, p.g, p.b) TEMPLATE_COVER_COLOR_RGB < (COLOR_MATCH_TOLERANCE : ℝ) →
      getPx (create_colored_book_icon t img) y x = some p) := by
  have hb := rgb_color_distance_lt_iff_sq (p.r, p.g, p.b) TEMPLATE_COVER_COLOR_RGB
    COLOR_MATCH_TOLERANCE (by decide)
  rw [getPx_composite, h]
  constructor
  · intro hlt
    have hsq := hb.mp hlt
    show some (compositePixel t p) = some ⟨t.1, t.2.1, t.2.2, p.a⟩
    unfold compositePixel
    rw [if_pos hsq]
  · intro hge
    have hsq : ¬ rgbSqDist (p.r, p.g, p.b) TEMPLATE_COVER_COLOR_RGB < COLOR_MATCH_TOLERANCE ^ 2 :=
      fun hc => hge (hb.mpr hc)
    show some (compositePixel t p) = some p
    unfold compositePixel
    rw [if_neg hsq]

/-- Witness for C1: compositing a 1×2 image with target (200,50,50)
recolors the cover-colored pixel keeping alpha 7 and copies the black
pixel unchanged. -/
theorem compositor_recolors_cover_pixels_witness :
    getPx (create_colored_book_icon (200, 50, 50) [[⟨106, 156, 66, 7⟩, ⟨0, 0, 0, 9⟩]]) 0 0 =
      some ⟨200, 50, 50, 7⟩ ∧
    getPx (create_colored_book_icon (200, 50, 50) [[⟨106, 156, 66, 7⟩, ⟨0, 0, 0, 9⟩]]) 0 1 =
      some ⟨0, 0, 0, 9⟩ := by
  constructor
  · exact (compositor_recolors_cover_pixels (200, 50, 50) [[⟨106, 156, 66, 7⟩, ⟨0, 0, 0, 9⟩]]
      0 0 ⟨106, 156, 66, 7⟩ rfl).1
      ((rgb_color_distance_lt_iff_sq _ _ _ (by decide)).mpr (by decide))
  · exact (compositor_recolors_cover_pixels (200, 50, 50) [[⟨106, 156, 66, 7⟩, ⟨0, 0, 0, 9⟩]]
      0 1 ⟨0, 0, 0, 9⟩ rfl).2
      (fun hc => absurd ((rgb_color_distance_lt_iff_sq _ _ _ (by decide)).mp hc) (by decide))

/-- Claim C2 (counterexample): the candidate (0,14,28) is rejected as
near-grayscale by the code (`is_grayscale` is true, so `suitable` is
false) even though its maximal pairwise channel difference is 28, not
below 15 — refuting "filtered as grayscale iff max pairwise difference
< 15". -/
theorem grayscale_max_pairwise_counterexample :
    is_grayscale 0 14 28 = true ∧ suitable ⟨0, 14, 28, 1⟩ = false ∧
      ¬ grayscale_claimed 0 14 28 :=
  ⟨by decide, by decide, by decide⟩

/-- Claim C2 (amended): a candidate is rejected as near-grayscale exactly
when |r-g| < 15 and |g-b| < 15 (the code checks only the two adjacent
channel pairs, not |r-b|); in particular every triple whose maximal
pairwise difference is below 15 is rejected. -/
theorem grayscale_checks_adjacent_pairs (r g b : ℤ) :
    (is_grayscale r g b = true ↔ |r - g| < 15 ∧ |g - b| < 15) ∧
    (grayscale_claimed r g b → is_grayscale r g b = true) := by
  constructor
  · simp [is_grayscale]
  · intro h
    unfold grayscale_claimed at h
    have h1 : |r - g| < 15 :=
      lt_of_le_of_lt (le_trans (le_max_left _ _) (le_max_left _ _)) h
    have h2 : |g - b| < 15 :=
      lt_of_le_of_lt (le_trans (le_max_right _ _) (le_max_left _ _)) h
    simp [is_grayscale, h1, h2]

/-- Witness for the amended C2 at (0,5,5). -/
theorem grayscale_checks_adjacent_pairs_witness : is_grayscale 0 5 5 = true :=
  (grayscale_checks_adjacent_pairs 0 5 5).2 (by decide)

/-- Claim C8: `rgb_color_distance` is symmetric, non-negative, and zero on
equal triples. -/
theorem rgb_color_distance_symm_nonneg_self_zero (a b : ℤ × ℤ × ℤ) :
    rgb_color_distance a b = rgb_color_distance b a ∧
    0 ≤ rgb_color_distance a b ∧ rgb_color_distance a a = 0 := by
  refine ⟨?_, Real.sqrt_nonneg _, ?_⟩
  · unfold rgb_color_distance
    rw [rgbSqDist_comm]
  · unfold rgb_color_distance
    rw [rgbSqDist_self]
    simp

lemma parseIconLocation_str (s : String) :
    parseIconLocation (IconLocation.str s) =
      if s.data = [] then some (none, 0)
      else if 1 < (pySplitComma s.data).length then
        match pyInt ((pySplitComma s.data).getD 1 []) with
        | some i => some (some (String.mk (pyStrip ((pySplitComma s.data).headD []))), i)
        | none => none
      else some (some (String.mk (pyStrip ((pySplitComma s.data).headD []))), 0) := rfl

lemma iconFromTarget_none (fs : FsOracle) : iconFromTarget fs none = none := rfl

lemma iconFromTarget_some (fs : FsOracle) (tp : String) :
    iconFromTarget fs (some tp) =
      if tp ≠ "" ∧ fs.exists_fn tp = true ∧ (hasIconExt tp = true ∨ fs.isfile_fn tp = true) then
        resolveIconPath fs tp 0
      else none := rfl

lemma get_original_icon_info_eq_none (fs : FsOracle) (loc : IconLocation)
    (target : Option String) (h : parseIconLocation loc = none) :
    get_original_icon_info fs loc target = none := by
  unfold get_original_icon_info
  rw [h]

lemma get_original_icon_info_eq_target (fs : FsOracle) (loc : IconLocation)
    (target : Option String) (index : ℤ)
    (h : parseIconLocation loc = some (none, index)) :
    get_original_icon_info fs loc target = iconFromTarget fs target := by
  unfold get_original_icon_info
  rw [h]

lemma get_original_icon_info_eq_target_empty (fs : FsOracle) (loc : IconLocation)
    (target : Option String) (index : ℤ)
    (h : parseIconLocation loc = some (some "", index)) :
    get_original_icon_info fs loc target = iconFromTarget fs target := by
  unfold get_original_icon_info
  rw [h]
  exact if_pos rfl

lemma get_original_icon_info_eq_resolve (fs : FsOracle) (loc : IconLocation)
    (target : Option String) (p : String) (index : ℤ)
    (h : parseIconLocation loc = some (some p, index)) (hp : p ≠ "") :
    get_original_icon_info fs loc target = resolveIconPath fs p index := by
  unfold get_original_icon_info
  rw [h]
  exact if_neg hp

lemma get_dominant_color_cons (c : CgColor) (cs : List CgColor) :
    get_dominant_color (c :: cs) =
      match (c :: cs).filter suitable with
      | s :: srest => some (rgbOf (mostProminent s srest))
      | [] => some (rgbOf (mostProminent c cs)) := rfl

lemma get_dominant_color_eq_suitable (c : CgColor) (cs : List CgColor) (s : CgColor)
    (srest : List CgColor) (h : (c :: cs).filter suitable = s :: srest) :
    get_dominant_color (c :: cs) = some (rgbOf (mostProminent s srest)) := by
  rw [get_dominant_color_cons, h]

lemma get_dominant_color_eq_fallback (c : CgColor) (cs : List CgColor)
    (h : (c :: cs).filter suitable = []) :
    get_dominant_color (c :: cs) = some (rgbOf (mostProminent c cs)) := by
  rw [get_dominant_color_cons, h]

lemma revert_parse_core_append (p ds : List Char) (n : ℤ)
    (hds : ',' ∉ ds) (hn : pyInt ds = some n) :
    revert_parse_core (p ++ ',' :: ds) = (pyStrip p, n) := by
  have hcont : (p ++ ',' :: ds).contains ',' = true := by simp
  unfold revert_parse_core
  rw [if_pos hcont, pyRsplitComma1_append p ds hds]
  dsimp only
  rw [hn]

/-- Claim C3 (counterexample): with a file-system oracle on which every
path exists, the icon-location string "path,notanumber" makes
`get_original_icon_info` return `(None, None)` (the `ValueError` from
`int` is caught by the enclosing handler), not ("path", 0) as the claim
states. -/
theorem icon_info_unparsable_index_counterexample :
    get_original_icon_info fsAll (IconLocation.str "path,notanumber") none = none ∧
    get_original_icon_info fsAll (IconLocation.str "path,notanumber") none ≠
      some ("path", 0) :=
  ⟨by decide, by decide⟩

/-- Claim C3 (amended): when the icon-location string splits into more
than one comma-separated part and the second part does not parse as an
integer, the `int(...)` call raises, the enclosing handler catches it,
and `get_original_icon_info` returns `(None, None)`; the
default-to-0-with-a-warning behavior lives in `revert_icons`' parsing,
not here. -/
theorem icon_info_unparsable_index_returns_none (fs : FsOracle) (target : Option String)
    (s : String) (hne : s.data ≠ [])
    (hlen : 1 < (pySplitComma s.data).length)
    (hparse : pyInt ((pySplitComma s.data).getD 1 []) = none) :
    get_original_icon_info fs (IconLocation.str s) target = none := by
  have hp : parseIconLocation (IconLocation.str s) = none := by
    rw [parseIconLocation_str, if_neg hne, if_pos hlen, hparse]
  exact get_original_icon_info_eq_none fs (IconLocation.str s) target hp

/-- Witness for the amended C3 at "path,notanumber". -/
theorem icon_info_unparsable_index_returns_none_witness :
    get_original_icon_info fsAll (IconLocation.str "path,notanumber") none = none :=
  icon_info_unparsable_index_returns_none fsAll none "path,notanumber"
    (by decide) (by decide) (by decide)

/-- Claim C10: `get_original_icon_info` returns either `(None, None)` or a
pair whose (environment-expanded) path exists on the file system at the
time of the check; it never returns a non-existent icon path. -/
theorem icon_info_success_implies_path_exists (fs : FsOracle) (loc : IconLocation)
    (target : Option String) :
    get_original_icon_info fs loc target = none ∨
    ∃ p i, get_original_icon_info fs loc target = some (p, i) ∧ fs.exists_fn p = true := by
  have hres : ∀ (q : String) (j : ℤ), resolveIconPath fs q j = none ∨
      ∃ p i, resolveIconPath fs q j = some (p, i) ∧ fs.exists_fn p = true := by
    intro q j
    unfold resolveIconPath
    by_cases hq : fs.exists_fn (fs.expandvars q) = true
    · exact Or.inr ⟨fs.expandvars q, j, by rw [if_pos hq], hq⟩
    · exact Or.inl (by rw [if_neg hq])
  have htgt : iconFromTarget fs target = none ∨
      ∃ p i, iconFromTarget fs target = some (p, i) ∧ fs.exists_fn p = true := by
    cases target with
    | none => exact Or.inl (iconFromTarget_none fs)
    | some tp =>
      rw [iconFromTarget_some fs tp]
      by_cases hc : tp ≠ "" ∧ fs.exists_fn tp = true ∧
        (hasIconExt tp = true ∨ fs.isfile_fn tp = true)
      · rw [if_pos hc]
        exact hres tp 0
      · rw [if_neg hc]
        exact Or.inl rfl
  cases hp : parseIconLocation loc with
  | none => exact Or.inl (get_original_icon_info_eq_none fs loc target hp)
  | some pi =>
    obtain ⟨pathOpt, index⟩ := pi
    cases pathOpt with
    | none =>
      rw [get_original_icon_info_eq_target fs loc target index hp]
      exact htgt
    | some p =>
      by_cases hpe : p = ""
      · subst hpe
        rw [get_original_icon_info_eq_target_empty fs loc target index hp]
        exact htgt
      · rw [get_original_icon_info_eq_resolve fs loc target p index hp hpe]
        exact hres p index

/-- Claim C5: the analyzer returns `None` exactly when clustering produced
no colors at all; when colors exist but none survives the suitability
filter, it returns the highest-proportion candidate of the unfiltered
set (the logged-caveat fallback). -/
theorem analyzer_fallback_and_none_iff_empty (colors : List CgColor) :
    (get_dominant_color colors = none ↔ colors = []) ∧
    (∀ c cs, colors = c :: cs → (c :: cs).filter suitable = [] →
      get_dominant_color colors = some (rgbOf (mostProminent c cs))) := by
  constructor
  · cases colors with
    | nil => simp [get_dominant_color]
    | cons c cs =>
      constructor
      · intro h
        cases hf : (c :: cs).filter suitable with
        | nil =>
          rw [get_dominant_color_eq_fallback c cs hf] at h
          exact Option.noConfusion h
        | cons s srest =>
          rw [get_dominant_color_eq_suitable c cs s srest hf] at h
          exact Option.noConfusion h
      · intro h
        exact List.noConfusion h
  · intro c cs heq hfil
    subst heq
    exact get_dominant_color_eq_fallback c cs hfil

/-- Witness for C5: a single dark gray candidate survives no filter, and
the analyzer falls back to it. -/
theorem analyzer_fallback_and_none_iff_empty_witness :
    get_dominant_color [⟨10, 10, 10, 1⟩] = some (10, 10, 10) :=
  (analyzer_fallback_and_none_iff_empty [⟨10, 10, 10, 1⟩]).2 ⟨10, 10, 10, 1⟩ [] rfl
    (by decide)

/-- Claim C7 (counterexample): the ledger value " C:\\App\\app.exe,2"
(path part with a leading space) is restored with the stripped path
"C:\\App\\app.exe", not the literal path part " C:\\App\\app.exe" — the
code applies `path.strip()` before setting the icon reference. -/
theorem revert_parse_strip_counterexample :
    revert_parse_icon_location " C:\\App\\app.exe,2" = ("C:\\App\\app.exe", 2) ∧
    (revert_parse_icon_location " C:\\App\\app.exe,2").1 ≠ " C:\\App\\app.exe" :=
  ⟨by decide, by decide⟩

/-- Claim C7 (amended): for a ledger value of the form "<path>,<n>" with n
a decimal integer and the split taken at the last comma, revert restores
the pair (strip(<path>), n): the path is whitespace-stripped, which is
the identity for paths without surrounding whitespace, as in
"C:\\App\\app.exe,2" restoring ("C:\\App\\app.exe", 2). -/
theorem revert_parse_restores_stripped_path_index (p ds : List Char) (n : ℤ)
    (hds : ',' ∉ ds) (hn : pyInt ds = some n) :
    revert_parse_icon_location (String.mk (p ++ ',' :: ds)) =
      (String.mk (pyStrip p), n) := by
  unfold revert_parse_icon_location
  rw [show (String.mk (p ++ ',' :: ds)).data = p ++ ',' :: ds from rfl]
  rw [revert_parse_core_append p ds n hds hn]

/-- Witness for the amended C7 at "C:\\App\\app.exe,2". -/
theorem revert_parse_restores_stripped_path_index_witness :
    revert_parse_icon_location "C:\\App\\app.exe,2" = ("C:\\App\\app.exe", 2) := by
  have heq : "C:\\App\\app.exe,2" = String.mk ("C:\\App\\app.exe".data ++ ',' :: "2".data) := by
    decide
  rw [heq, revert_parse_restores_stripped_path_index "C:\\App\\app.exe".data "2".data 2
    (by decide) (by decide)]
  decide

/-- Claim C4: when any per-item stage fails for a shortcut, the loop body
increments the skip counter, leaves the processed counter untouched, the
loop continues with the remaining shortcuts, and every shortcut of the
batch is accounted for as processed or skipped — no per-item failure
terminates the batch. -/
theorem apply_stage_failure_skips_and_continues (st : Stages) (s : String)
    (rest : List String) (r : RunState) (h : stageFails st s = true) :
    applyLoop st (s :: rest) r = applyLoop st rest (processShortcut st r s) ∧
    (processShortcut st r s).skipped = r.skipped + 1 ∧
    (processShortcut st r s).processed = r.processed ∧
    (applyLoop st (s :: rest) r).processed + (applyLoop st (s :: rest) r).skipped =
      r.processed + r.skipped + (rest.length + 1) := by
  obtain ⟨h1, h2⟩ := processShortcut_of_stageFails st r s h
  refine ⟨applyLoop_cons st s rest r, h1, h2, ?_⟩
  rw [applyLoop_cons st s rest r, applyLoop_count st rest (processShortcut st r s), h1, h2]
  omega

/-- Witness for C4: the stage oracles on which reading the original
reference fails skip the single shortcut and the batch total accounts for
it. -/
theorem apply_stage_failure_skips_and_continues_witness :
    (processShortcut stInfoFail ⟨0, 0, []⟩ "A.lnk").skipped = 0 + 1 ∧
    (processShortcut stInfoFail ⟨0, 0, []⟩ "A.lnk").processed = 0 ∧
    (applyLoop stInfoFail ["A.lnk"] ⟨0, 0, []⟩).processed +
      (applyLoop stInfoFail ["A.lnk"] ⟨0, 0, []⟩).skipped = 0 + 0 + (0 + 1) := by
  obtain ⟨-, h2, h3, h4⟩ :=
    apply_stage_failure_skips_and_continues stInfoFail "A.lnk" [] ⟨0, 0, []⟩ rfl
  exact ⟨h2, h3, h4⟩

/-- Claim C9: once a shortcut's original icon reference is read
successfully, its ledger entry is recorded (before extraction, analysis,
compositing or applying, whose outcomes the statement quantifies over
arbitrarily — including failure), and the ledger persisted at the end of
the run contains that entry. -/
theorem apply_records_backup_before_later_stages (st : Stages) (shortcuts : List String)
    (backup0 : List (String × String)) (fs : FileStore) (s p : String) (i : ℤ)
    (hs : st.get_info s = some (p, i)) (hmem : s ∈ shortcuts) :
    dictLookup s (applyLoop st shortcuts ⟨0, 0, backup0⟩).backup = some (entryStr p i) ∧
    (apply_book_icons st shortcuts backup0 fs).2.2 BACKUP_FILE =
      some (some (ledgerJson (applyLoop st shortcuts ⟨0, 0, backup0⟩).backup)) := by
  refine ⟨applyLoop_entry_of_mem st shortcuts ⟨0, 0, backup0⟩ s p i hs hmem, ?_⟩
  unfold apply_book_icons save_backup fsWrite
  simp

/-- Witness for C9: extraction fails for the only shortcut (so it is
skipped), yet its original reference is in the final ledger. -/
theorem apply_records_backup_before_later_stages_witness :
    dictLookup "A.lnk" (applyLoop stExtractFail ["A.lnk"] ⟨0, 0, []⟩).backup =
      some (entryStr "C:\\orig.exe" 3) ∧
    (applyLoop stExtractFail ["A.lnk"] ⟨0, 0, []⟩).skipped = 1 :=
  ⟨(apply_records_backup_before_later_stages stExtractFail ["A.lnk"] [] fsEmpty
      "A.lnk" "C:\\orig.exe" 3 rfl (by simp)).1, by decide⟩

/-- Claim C6: saving a ledger mapping and then loading it yields the same
mapping (the stored document is the string-valued object with exactly the
saved entries); keys are distinct, as they are in any real dict. -/
theorem ledger_save_load_round_trip (fs : FileStore) (d : List (String × String))
    (h : (d.map Prod.fst).Nodup) :
    load_backup (save_backup fs d) = ledgerJson d := by
  have hfile : save_backup fs d BACKUP_FILE = some (some (ledgerJson d)) := by
    unfold save_backup fsWrite
    simp
  unfold load_backup
  rw [hfile]
  show pyJsonLoad (ledgerJson d) = ledgerJson d
  unfold ledgerJson pyJsonLoad
  rw [pyJsonLoadEntries_str]
  rw [pyDictOf_of_nodup _ (by simpa [List.map_map, Function.comp] using h)]

/-- Witness for C6: the spec's scenario ledger round-trips. -/
theorem ledger_save_load_round_trip_witness :
    load_backup
        (save_backup fsEmpty [("C:\\Users\\X\\Desktop\\App.lnk", "C:\\App\\app.exe,2")]) =
      ledgerJson [("C:\\Users\\X\\Desktop\\App.lnk", "C:\\App\\app.exe,2")] :=
  ledger_save_load_round_trip fsEmpty _ (by simp)
